import Mathlib

/-!
Shallow embedding of the offline-sync and audit-log core of the
hikma-health server (sync pull/push in the Sync namespace, audit logging
and hash verification in the EventLog namespace, and the event_logs
immutability trigger from the create_event_logs migration).
-/

/-- Left brace character as a string (used by the JSON renderers). -/
def lbr : String := "\x7b"

/-- Right brace character as a string (used by the JSON renderers). -/
def rbr : String := "\x7d"

/-- JSON values, as produced by the application when serializing the
`changes` and `metadata` payloads of an audit log entry.  Numbers are
restricted to integers, which covers every payload appearing in the
source (ids, counters, epoch timestamps). -/
inductive Json where
  | null : Json
  | bool (b : Bool) : Json
  | num (n : Int) : Json
  | str (s : String) : Json
  | arr (elems : List Json) : Json
  | obj (fields : List (String × Json)) : Json
deriving Repr

mutual

/-- Equality test on JSON values (PostgreSQL `=` on two identical jsonb
values; used by the field comparisons of the immutability trigger). -/
def Json.beq : Json → Json → Bool
  | Json.null, Json.null => true
  | Json.bool a, Json.bool b => a == b
  | Json.num a, Json.num b => a == b
  | Json.str a, Json.str b => a == b
  | Json.arr a, Json.arr b => Json.beqArr a b
  | Json.obj a, Json.obj b => Json.beqFields a b
  | _, _ => false

def Json.beqArr : List Json → List Json → Bool
  | [], [] => true
  | x :: xs, y :: ys => Json.beq x y && Json.beqArr xs ys
  | _, _ => false

def Json.beqFields : List (String × Json) → List (String × Json) → Bool
  | [], [] => true
  | x :: xs, y :: ys => x.1 == y.1 && Json.beq x.2 y.2 && Json.beqFields xs ys
  | _, _ => false

end

/-- Escape a string for inclusion in a JSON document (quote, backslash
and the common control characters; other characters are emitted as-is). -/
def jsonEscapeList : List Char → String
  | [] => ""
  | c :: cs =>
      (if c = '"' then "\\\""
       else if c = '\\' then "\\\\"
       else if c = '\n' then "\\n"
       else if c = '\t' then "\\t"
       else if c = '\r' then "\\r"
       else String.mk [c]) ++ jsonEscapeList cs

def jsonEscape (s : String) : String := jsonEscapeList s.data

/-- Quote a JSON string. -/
def jsonQuote (s : String) : String := "\"" ++ jsonEscape s ++ "\""

mutual

/-- Model of `JSON.stringify` as invoked by `logEvent` on the `changes` object:
compact output (no whitespace), object keys in insertion order. -/
def jsStringify : Json → String
  | Json.null => "null"
  | Json.bool b => if b then "true" else "false"
  | Json.num n => toString n
  | Json.str s => jsonQuote s
  | Json.arr elems => "[" ++ jsStringifyArr elems ++ "]"
  | Json.obj fields => lbr ++ jsStringifyFields fields ++ rbr

def jsStringifyArr : List Json → String
  | [] => ""
  | [x] => jsStringify x
  | x :: xs => jsStringify x ++ "," ++ jsStringifyArr xs

def jsStringifyFields : List (String × Json) → String
  | [] => ""
  | [kv] => jsonQuote kv.1 ++ ":" ++ jsStringify kv.2
  | kv :: kvs => jsonQuote kv.1 ++ ":" ++ jsStringify kv.2 ++ "," ++ jsStringifyFields kvs

end

/-- Byte-wise (code-point-wise) strict ordering on character lists. -/
def strLtList : List Char → List Char → Bool
  | [], [] => false
  | [], _ :: _ => true
  | _ :: _, [] => false
  | a :: as, b :: bs =>
      Nat.blt a.toNat b.toNat || (Nat.beq a.toNat b.toNat && strLtList as bs)

/-- PostgreSQL jsonb object key ordering: shorter keys first, ties broken
by byte-wise comparison.  This is the order in which `jsonb` stores and
prints object members. -/
def pgKeyLt (a b : String) : Bool :=
  Nat.blt a.data.length b.data.length ||
    (Nat.beq a.data.length b.data.length && strLtList a.data b.data)

/-- Insert a field into a list sorted by `pgKeyLt` (stable). -/
def pgInsertField (kv : String × Json) : List (String × Json) → List (String × Json)
  | [] => [kv]
  | hd :: tl => if pgKeyLt kv.1 hd.1 then kv :: hd :: tl else hd :: pgInsertField kv tl

/-- Sort object fields into PostgreSQL jsonb key order. -/
def pgSortFields : List (String × Json) → List (String × Json)
  | [] => []
  | kv :: kvs => pgInsertField kv (pgSortFields kvs)

/-- Drop all but the last occurrence of each key, as PostgreSQL jsonb does
for duplicate object keys. -/
def pgDedupFields : List (String × Json) → List (String × Json)
  | [] => []
  | kv :: kvs => if kvs.any (fun other => other.1 == kv.1) then pgDedupFields kvs
      else kv :: pgDedupFields kvs

mutual

/-- Recursively put a JSON value into PostgreSQL jsonb storage form:
object keys deduplicated (last occurrence wins) and sorted by
(length, byte order) at every level.  This is what storing a value in a
`jsonb` column does to it. -/
def pgCanon : Json → Json
  | Json.obj fields => Json.obj (pgSortFields (pgDedupFields (pgCanonFields fields)))
  | Json.arr elems => Json.arr (pgCanonArr elems)
  | j => j

def pgCanonFields : List (String × Json) → List (String × Json)
  | [] => []
  | kv :: kvs => (kv.1, pgCanon kv.2) :: pgCanonFields kvs

def pgCanonArr : List Json → List Json
  | [] => []
  | x :: xs => pgCanon x :: pgCanonArr xs

end

mutual

/-- Render a (storage-form) jsonb value the way PostgreSQL prints it:
members separated by a comma and a space, a space after the colon of each key. -/
def pgRender : Json → String
  | Json.null => "null"
  | Json.bool b => if b then "true" else "false"
  | Json.num n => toString n
  | Json.str s => jsonQuote s
  | Json.arr elems => "[" ++ pgRenderArr elems ++ "]"
  | Json.obj fields => lbr ++ pgRenderFields fields ++ rbr

def pgRenderArr : List Json → String
  | [] => ""
  | [x] => pgRender x
  | x :: xs => pgRender x ++ ", " ++ pgRenderArr xs

def pgRenderFields : List (String × Json) → String
  | [] => ""
  | [kv] => jsonQuote kv.1 ++ ": " ++ pgRender kv.2
  | kv :: kvs => jsonQuote kv.1 ++ ": " ++ pgRender kv.2 ++ ", " ++ pgRenderFields kvs

end

/-- The text produced by the `changes::text` cast inside `verifyHashes`:
the stored (canonicalized) jsonb value printed in the PostgreSQL output format. -/
def pgJsonbText (j : Json) : String := pgRender (pgCanon j)

example : jsStringify (Json.obj [("a", Json.num 1)]) = lbr ++ "\"a\":1" ++ rbr := by decide
example : pgJsonbText (Json.obj [("surname", Json.obj [("old", Json.str "Doe"), ("new", Json.str "Smith")])])
    = lbr ++ "\"surname\": " ++ lbr ++ "\"new\": \"Smith\", \"old\": \"Doe\"" ++ rbr ++ rbr := by decide

/-! ## Audit log (EventLog namespace of the source, and the event_logs migration) -/

/-- Join strings with the `|` separator — the JS `[...].join("|")` in
`computeHash` and, for all-non-null arguments, the SQL
`concat_ws('|', ...)` in `verifyHashes`. -/
def joinPipe : List String → String
  | [] => ""
  | [x] => x
  | x :: xs => x ++ "|" ++ joinPipe xs

/-- Parameters of `EventLog.logEvent` (the `LogEventParams` interface). -/
structure LogEventParams where
  transactionId : Option String
  actionType : String
  tableName : String
  rowId : String
  changes : Json
  userId : String
  metadata : Option Json
deriving Repr

/-- The `EventLog.RequestContext` interface (IP, device fingerprint, app id). -/
structure RequestContext where
  ipAddress : Option String
  deviceId : String
  appId : String
deriving Repr

/-- A stored row of the `event_logs` table.  Timestamps are epoch
milliseconds; `changes`/`metadata` are the stored jsonb values. -/
structure EventLogRow where
  id : String
  transaction_id : String
  action_type : String
  table_name : String
  row_id : String
  changes : Json
  device_id : String
  app_id : String
  user_id : String
  ip_address : Option String
  hash : String
  hash_verified : Option Bool
  metadata : Json
  is_deleted : Bool
  created_at : Int
  updated_at : Int
  last_modified : Int
  server_created_at : Int
  deleted_at : Option Int
deriving Repr

/-- Input of `EventLog.computeHash` (its `data` parameter). -/
structure HashInput where
  id : String
  transactionId : String
  actionType : String
  tableName : String
  rowId : String
  changes : String
  deviceId : String
  appId : String
  userId : String
  ipAddress : Option String
  createdAt : Int
deriving Repr

/-- The string `EventLog.computeHash` feeds to SHA-256: the `|`-joined
payload of id, transactionId, actionType, tableName, rowId, changes,
deviceId, appId, userId, ipAddress-or-empty, createdAt millis. -/
def computeHashPayload (d : HashInput) : String :=
  joinPipe [d.id, d.transactionId, d.actionType, d.tableName, d.rowId, d.changes,
    d.deviceId, d.appId, d.userId, d.ipAddress.getD "", toString d.createdAt]

/-- Model of `EventLog.computeHash`, with the SHA-256 digest abstracted as a
function `sha` on the payload string. -/
def computeHash (sha : String → String) (d : HashInput) : String :=
  sha (computeHashPayload d)

/-- The row inserted by `EventLog.logEvent`.  The generated `uuidv7()`
values and `Date.now()` are passed explicitly (`genId`, `genTx`,
`nowMs`).  The insert lists id, transaction_id, action_type, table_name,
row_id, changes, device_id, app_id, user_id, ip_address, hash, metadata
and created_at; every other column takes its database default from the
create_event_logs migration — in particular `hash_verified` defaults to
`false` (migration: `defaultTo(false)`), `is_deleted` to `false`, and the
remaining timestamps to `now()`.  Storing `changes`/`metadata` through
`::jsonb` canonicalizes them (`pgCanon`). -/
def logEventRow (sha : String → String) (genId genTx : String) (nowMs : Int)
    (params : LogEventParams) (ctx : RequestContext) : EventLogRow :=
  let transactionId := params.transactionId.getD genTx
  let changesStr := jsStringify params.changes
  let hash := computeHash sha
    { id := genId, transactionId := transactionId, actionType := params.actionType,
      tableName := params.tableName, rowId := params.rowId, changes := changesStr,
      deviceId := ctx.deviceId, appId := ctx.appId, userId := params.userId,
      ipAddress := ctx.ipAddress, createdAt := nowMs }
  { id := genId
    transaction_id := transactionId
    action_type := params.actionType
    table_name := params.tableName
    row_id := params.rowId
    changes := pgCanon params.changes
    device_id := ctx.deviceId
    app_id := ctx.appId
    user_id := params.userId
    ip_address := ctx.ipAddress
    hash := hash
    hash_verified := some false
    metadata := pgCanon (params.metadata.getD (Json.obj []))
    is_deleted := false
    created_at := nowMs
    updated_at := nowMs
    last_modified := nowMs
    server_created_at := nowMs
    deleted_at := none }

/-- Model of `EventLog.logEvent`: a single insert appending exactly one row to the
`event_logs` table. -/
def logEvent (sha : String → String) (genId genTx : String) (nowMs : Int)
    (params : LogEventParams) (ctx : RequestContext)
    (rows : List EventLogRow) : List EventLogRow :=
  rows ++ [logEventRow sha genId genTx nowMs params ctx]

/-- The string the `verifyHashes` SQL feeds to `digest(..., 'sha256')`:
`concat_ws('|', id::text, transaction_id::text, action_type, table_name,
row_id, changes::text, device_id, app_id, user_id,
COALESCE(ip_address::text, ''), (extract(epoch from created_at) *
1000)::bigint::text)`.  All arguments are non-null (the nullable
ip_address is COALESCEd), so `concat_ws` is a plain `|`-join; the stored
jsonb `changes` is rendered by the PostgreSQL text output. -/
def verifyRecomputedPayload (r : EventLogRow) : String :=
  joinPipe [r.id, r.transaction_id, r.action_type, r.table_name, r.row_id,
    pgJsonbText r.changes, r.device_id, r.app_id, r.user_id,
    r.ip_address.getD "", toString r.created_at]

/-- The per-row update performed by `verifyHashes` on a selected row:
`SET hash_verified = (u.hash = u.computed_hash)`. -/
def verifyHashesRow (sha : String → String) (r : EventLogRow) : EventLogRow :=
  { r with hash_verified := some (r.hash == sha (verifyRecomputedPayload r)) }

/-- Trigger operations covered by `prevent_event_log_mutation`. -/
inductive TgOp where
  | update : TgOp
  | delete : TgOp
deriving DecidableEq, Repr

/-- The `prevent_event_log_mutation` trigger function from the
create_event_logs migration: returns `true` when the operation is
allowed (the trigger returns NEW) and `false` when it raises the
append-only exception.  An UPDATE is allowed exactly when id,
transaction_id, action_type, table_name, row_id, changes, device_id,
app_id, user_id, hash, ip_address (IS NOT DISTINCT FROM) and created_at
are all unchanged; every DELETE raises. -/
def prevent_event_log_mutation (op : TgOp) (oldRow newRow : EventLogRow) : Bool :=
  match op with
  | TgOp.update =>
      newRow.id == oldRow.id &&
      newRow.transaction_id == oldRow.transaction_id &&
      newRow.action_type == oldRow.action_type &&
      newRow.table_name == oldRow.table_name &&
      newRow.row_id == oldRow.row_id &&
      Json.beq newRow.changes oldRow.changes &&
      newRow.device_id == oldRow.device_id &&
      newRow.app_id == oldRow.app_id &&
      newRow.user_id == oldRow.user_id &&
      newRow.hash == oldRow.hash &&
      newRow.ip_address == oldRow.ip_address &&
      newRow.created_at == oldRow.created_at
  | TgOp.delete => false

/-! ## Sync pull (Sync.getMaxHistoryDaysSync and Sync.getDeltaRecords) -/

/-- Result of `Number(envValue)` on the `MAX_HISTORY_DAYS_SYNC`
environment string, classified the way `getMaxHistoryDaysSync` inspects
it: `nan` (fails `isNaN`), `nonint` (a finite non-integer, fails
`Number.isInteger`), or an integer value. -/
inductive JsNumber where
  | nan : JsNumber
  | nonint : JsNumber
  | int (n : Int) : JsNumber
deriving DecidableEq, Repr

/-- Model of `Sync.getMaxHistoryDaysSync`: the `none` input models an unset (or empty,
hence falsy) `MAX_HISTORY_DAYS_SYNC`; a NaN, non-integer or non-positive
value is rejected (logged, treated as no limit); otherwise the positive
integer day count is returned. -/
def getMaxHistoryDaysSync (envValue : Option JsNumber) : Option Int :=
  match envValue with
  | none => none
  | some JsNumber.nan => none
  | some JsNumber.nonint => none
  | some (JsNumber.int days) => if days ≤ 0 then none else some days

/-- Milliseconds in a day, as in `maxHistoryDays * 24 * 60 * 60 * 1000`. -/
def dayMs : Int := 24 * 60 * 60 * 1000

/-- The `effectiveLastSyncDate` computed at the top of `getDeltaRecords`:
the client watermark, clamped to `now - maxHistoryDays` when the setting
is present (`clientLastSyncDate < cutoffDate ? cutoffDate :
clientLastSyncDate`). -/
def effectiveLastSyncDate (nowMs clientLastSync : Int) (maxHistoryDays : Option Int) : Int :=
  match maxHistoryDays with
  | none => clientLastSync
  | some days =>
      let cutoffDate := nowMs - days * dayMs
      if clientLastSync < cutoffDate then cutoffDate else clientLastSync

/-- The `EXEMPT_FROM_HISTORY_LIMIT` list of `getDeltaRecords`:
configuration entities that always sync full history. -/
def EXEMPT_FROM_HISTORY_LIMIT : List String :=
  ["clinics", "patient_registration_forms", "event_forms", "drug_catalogue",
   "clinic_departments", "clinic_inventory"]

/-- The per-entity `lastSyncDate` chosen inside the `getDeltaRecords`
loop: the raw client watermark for exempt (configuration) entities, the
history-limited effective watermark for everything else. -/
def lastSyncDateFor (nowMs clientLastSync : Int) (maxHistoryDays : Option Int)
    (mobileName : String) : Int :=
  if EXEMPT_FROM_HISTORY_LIMIT.contains mobileName then clientLastSync
  else effectiveLastSyncDate nowMs clientLastSync maxHistoryDays

/-- The columns of a synced row that the delta queries inspect
(timestamps are epoch milliseconds; `deleted_at` is nullable). -/
structure SyncRow where
  id : String
  server_created_at : Int
  last_modified : Int
  deleted_at : Option Int
  is_deleted : Bool
deriving DecidableEq, Repr

/-- The `newRecords` query of `getDeltaRecords`:
`server_created_at > lastSyncDate AND deleted_at IS NULL AND
is_deleted = false`. -/
def createdRecords (lastSyncDate : Int) (rows : List SyncRow) : List SyncRow :=
  rows.filter (fun r =>
    lastSyncDate < r.server_created_at && r.deleted_at == none && r.is_deleted == false)

/-- The `updatedRecords` query of `getDeltaRecords`:
`last_modified > lastSyncDate AND server_created_at < lastSyncDate AND
deleted_at IS NULL AND is_deleted = false`. -/
def updatedRecords (lastSyncDate : Int) (rows : List SyncRow) : List SyncRow :=
  rows.filter (fun r =>
    lastSyncDate < r.last_modified && r.server_created_at < lastSyncDate &&
      r.deleted_at == none && r.is_deleted == false)

/-- The `deletedRecords` query of `getDeltaRecords` (the `lastSyncedAt
=== 0` bootstrap guard included): ids of rows with
`deleted_at > lastSyncDate AND is_deleted = true`; a NULL `deleted_at`
compares false in SQL. -/
def deletedRecordIds (lastSyncedAt : Int) (lastSyncDate : Int) (rows : List SyncRow) : List String :=
  if lastSyncedAt == 0 then []
  else
    (rows.filter (fun r =>
      (match r.deleted_at with
       | some d => lastSyncDate < d
       | none => false) && r.is_deleted == true)).map (fun r => r.id)

/-- A syncable entity as seen by the `getDeltaRecords` loop: its server
table name, its mobile table name, and its stored rows. -/
structure EntityTable where
  name : String
  mobileName : String
  rows : List SyncRow
deriving DecidableEq, Repr

/-- Per-entity delta produced by the loop body of `getDeltaRecords`. -/
structure SyncDelta where
  created : List SyncRow
  updated : List SyncRow
  deleted : List String
deriving DecidableEq, Repr

/-- A row of `user_clinic_permissions` or `app_config`, which track only
`created_at`/`updated_at` (no soft-delete or sync bookkeeping columns). -/
structure AdminRow where
  id : String
  created_at : Int
  updated_at : Int
deriving DecidableEq, Repr

/-- Delta for the two watermark-only tables appended after the loop. -/
structure AdminDelta where
  created : List AdminRow
  updated : List AdminRow
  deleted : List String
deriving DecidableEq, Repr

/-- One value of the change-set object returned by `getDeltaRecords`. -/
inductive DeltaOut where
  | ent (d : SyncDelta) : DeltaOut
  | adm (d : AdminDelta) : DeltaOut
deriving DecidableEq, Repr

/-- The `deleted` list of either kind of delta. -/
def DeltaOut.deletedIds : DeltaOut → List String
  | DeltaOut.ent d => d.deleted
  | DeltaOut.adm d => d.deleted

/-- The database state visible to a pull: the rows of every entity in
`ENTITIES_TO_PUSH_TO_MOBILE` plus the two watermark-only tables. -/
structure PullDb where
  entities : List EntityTable
  user_clinic_permissions : List AdminRow
  app_config : List AdminRow
deriving Repr

/-- The loop body of `getDeltaRecords` for one entity. -/
def entityDelta (lastSyncedAt nowMs clientLastSync : Int) (maxHistoryDays : Option Int)
    (e : EntityTable) : SyncDelta :=
  let lastSyncDate := lastSyncDateFor nowMs clientLastSync maxHistoryDays e.mobileName
  { created := createdRecords lastSyncDate e.rows
    updated := updatedRecords lastSyncDate e.rows
    deleted := deletedRecordIds lastSyncedAt lastSyncDate e.rows }

/-- The delta computed for `user_clinic_permissions` and `app_config`
after the entity loop: `created_at > clientLastSyncDate` for created,
`created_at < clientLastSyncDate AND updated_at > clientLastSyncDate`
for updated, and no deletions ever. -/
def adminDelta (clientLastSync : Int) (rows : List AdminRow) : AdminDelta :=
  { created := rows.filter (fun r => clientLastSync < r.created_at)
    updated := rows.filter (fun r =>
      r.created_at < clientLastSync && clientLastSync < r.updated_at)
    deleted := [] }

/-- Model of `Sync.getDeltaRecords`: the change-set object, as the ordered list of
key assignments it performs (entity loop in catalog order, then the
`user_clinic_permissions` and `app_config` keys).  `envValue` is the
parsed `MAX_HISTORY_DAYS_SYNC` setting and `nowMs` is `new Date()`;
`clientLastSyncDate = new Date(lastSyncedAt)` is the raw watermark. -/
def getDeltaRecords (envValue : Option JsNumber) (nowMs : Int) (db : PullDb)
    (lastSyncedAt : Int) : List (String × DeltaOut) :=
  let clientLastSync := lastSyncedAt
  let maxHistoryDays := getMaxHistoryDaysSync envValue
  (db.entities.map (fun e =>
    (e.mobileName, DeltaOut.ent (entityDelta lastSyncedAt nowMs clientLastSync maxHistoryDays e))))
  ++ [("user_clinic_permissions", DeltaOut.adm (adminDelta clientLastSync db.user_clinic_permissions)),
      ("app_config", DeltaOut.adm (adminDelta clientLastSync db.app_config))]

/-- Lookup in a JS-object-style assignment list: the LAST assignment to a
key wins (later `result[key] = ...` statements overwrite earlier ones). -/
def changeSetLookup (assignments : List (String × DeltaOut)) (key : String) : Option DeltaOut :=
  (assignments.reverse.find? (fun kv => kv.1 == key)).map (fun kv => kv.2)

/-! ## Sync push (Sync.persistClientChanges and the record sanitizers) -/

/-- A scalar value of a pushed client record.  `date` is a normalized
date representation (an instant, in epoch milliseconds). -/
inductive PushVal where
  | null : PushVal
  | bool (b : Bool) : PushVal
  | num (n : Int) : PushVal
  | str (s : String) : PushVal
  | date (ms : Int) : PushVal
deriving DecidableEq, Repr

/-- A pushed client record: field assignments in object order. -/
abbrev PushRec := List (String × PushVal)

/-- Strip leading and trailing whitespace from a character list (the JS
`String.prototype.trim` applied by `isEpochTimestamp`). -/
def trimChars (cs : List Char) : List Char :=
  ((cs.dropWhile Char.isWhitespace).reverse.dropWhile Char.isWhitespace).reverse

/-- Decimal value of a digit list. -/
def digitsToNat (cs : List Char) : Nat :=
  cs.foldl (fun acc c => acc * 10 + (c.toNat - 48)) 0

/-- Does `s` end with the suffix `t`? (the `name.endsWith(...)` checks of
`isDateColumn`). -/
def strEndsWith (s t : String) : Bool :=
  go s.data.reverse t.data.reverse
where
  go : List Char → List Char → Bool
    | _, [] => true
    | [], _ :: _ => false
    | a :: as, b :: bs => a == b && go as bs

/-- Model of `isEpochTimestamp` from the sync module: a trimmed 10-13 digit
string, or a number with `1e9 < n < 1e14` (client epochs are integral,
so the numeric case is an integer test). -/
def isEpochTimestamp (v : PushVal) : Bool :=
  match v with
  | PushVal.str s =>
      let t := trimChars s.data
      decide (10 ≤ t.length) && decide (t.length ≤ 13) && t.all Char.isDigit
  | PushVal.num n => decide ((1000000000 : Int) < n) && decide (n < (100000000000000 : Int))
  | _ => false

/-- Model of `isDateColumn` from the sync module: column names ending in `_at` or
`_date`, or equal to `timestamp` or `last_modified`. -/
def isDateColumn (name : String) : Bool :=
  strEndsWith name "_at" || strEndsWith name "_date" ||
    name == "timestamp" || name == "last_modified"

/-- Modelled from the spec: `toSafeDateString` from `@/lib/utils` (the
utils module is not under src/).  Per the spec, an epoch-shaped value is
converted "to a normalized date representation" denoting the same
instant; 10-digit epochs are seconds, longer ones milliseconds.  A value
that is not epoch-shaped is passed through unchanged. -/
def toSafeDateString (v : PushVal) : PushVal :=
  match v with
  | PushVal.str s =>
      if isEpochTimestamp (PushVal.str s) then
        let digits := trimChars s.data
        let n : Int := Int.ofNat (digitsToNat digits)
        PushVal.date (if digits.length ≤ 10 then n * 1000 else n)
      else PushVal.str s
  | PushVal.num n =>
      if isEpochTimestamp (PushVal.num n) then
        PushVal.date (if n ≤ 9999999999 then n * 1000 else n)
      else PushVal.num n
  | other => other

/-- The per-record sanitization inside `persistClientChanges`: keep only
fields in the known-column set of the entity, then convert epoch-shaped
values via `toSafeDateString`, and coerce a literal `0`/`"0"` in a
date-named column to null.  (The epoch conversion tests only the value,
not the column name.) -/
def cleanRecord (knownColumns : List String) (record : PushRec) : PushRec :=
  (record.filter (fun kv => knownColumns.contains kv.1)).map (fun kv =>
    if isEpochTimestamp kv.2 then (kv.1, toSafeDateString kv.2)
    else if (kv.2 == PushVal.num 0 || kv.2 == PushVal.str "0") && isDateColumn kv.1 then
      (kv.1, PushVal.null)
    else kv)

/-- The delta of one table in a `PushRequest` (`created`/`updated` raw client
records, `deleted` row ids; the `|| []` defaults of
`persistClientChanges` make each list total). -/
structure PushDelta where
  created : List PushRec
  updated : List PushRec
  deleted : List String
deriving DecidableEq, Repr

/-- One entry of `pushTableNameModelMap`: the known columns of the entity and
its `Sync.upsertFromDelta` / `Sync.deleteFromDelta` operations acting on
the stored state `σ`. -/
structure SyncAdapter (σ : Type) where
  columns : List String
  upsertFromDelta : σ → PushRec → σ
  deleteFromDelta : σ → String → σ

/-- The `pushTableNameModelMap` lookup table keyed by server table name. -/
structure PushCatalog (σ : Type) where
  find : String → Option (SyncAdapter σ)

/-- The per-table body of `persistClientChanges`: clean and upsert every
record of `created` then `updated`, then soft-delete every id of
`deleted`. -/
def applyTableDelta {σ : Type} (a : SyncAdapter σ) (s : σ) (d : PushDelta) : σ :=
  let afterUpserts := (d.created ++ d.updated).foldl
    (fun acc r => a.upsertFromDelta acc (cleanRecord a.columns r)) s
  d.deleted.foldl (fun acc i => a.deleteFromDelta acc i) afterUpserts

/-- Model of `Sync.persistClientChanges`: walk the entries of the `PushRequest` in
object order; a table name missing from the catalog is skipped (logged
and `continue`d), the delta of any other table is applied. -/
def persistClientChanges {σ : Type} (cat : PushCatalog σ) (s : σ)
    (data : List (String × PushDelta)) : σ :=
  data.foldl
    (fun acc entry =>
      match cat.find entry.1 with
      | none => acc
      | some a => applyTableDelta a acc entry.2)
    s

/-! ## The events adapter (Event.API.save / Event.Sync) and its store -/

/-- Modelled from the spec: `isValidUUID` from `@/lib/utils` (the utils
module is not under src/): a canonical 8-4-4-4-12 hex UUID string. -/
def splitDash : List Char → List (List Char)
  | [] => [[]]
  | c :: cs =>
      match splitDash cs with
      | [] => [[]]
      | g :: gs => if c = '-' then [] :: g :: gs else (c :: g) :: gs

def isValidUUID (s : String) : Bool :=
  match splitDash s.data with
  | [a, b, c, d, e] =>
      a.length == 8 && b.length == 4 && c.length == 4 && d.length == 4 &&
        e.length == 12 &&
        (a ++ b ++ c ++ d ++ e).all (fun ch =>
          ch.isDigit || ('a' ≤ ch && ch ≤ 'f') || ('A' ≤ ch && ch ≤ 'F'))
  | _ => false

/-- Field access on a pushed record (JS property access; a missing field
is `undefined`, here `none`). -/
def recGet (r : PushRec) (k : String) : Option PushVal :=
  (List.find? (fun kv => kv.1 == k) r).map (fun kv => kv.2)

/-- JS truthiness of a (possibly missing) record field. -/
def truthy : Option PushVal → Bool
  | none => false
  | some PushVal.null => false
  | some (PushVal.bool b) => b
  | some (PushVal.num n) => !(n == 0)
  | some (PushVal.str s) => !(s == "")
  | some (PushVal.date _) => true

/-- String coercion of a record field used where JS passes the value as
an id. -/
def pushValToString : PushVal → String
  | PushVal.str s => s
  | PushVal.num n => toString n
  | PushVal.date ms => toString ms
  | PushVal.bool b => if b then "true" else "false"
  | PushVal.null => "null"

/-- A stored row of the `events` table, with the client-fed columns kept
as dynamic values. -/
structure EventRow where
  id : String
  patient_id : PushVal
  visit_id : PushVal
  form_id : PushVal
  event_type : PushVal
  form_data : PushVal
  metadata : PushVal
  is_deleted : Bool
  created_at : PushVal
  updated_at : PushVal
  last_modified : Int
  server_created_at : Int
  deleted_at : Option Int
  recorded_by_user_id : PushVal
deriving DecidableEq, Repr

/-- A stored row of the `visits` table (the columns written by the
artificial-visit insert inside `Event.API.save`). -/
structure VisitRow where
  id : String
  patient_id : PushVal
  clinic_id : String
  provider_id : String
  provider_name : Option String
  check_in_timestamp : PushVal
  metadata : PushRec
  is_deleted : Bool
  created_at : Int
  updated_at : Int
  last_modified : Int
  server_created_at : Int
  deleted_at : Option Int
deriving DecidableEq, Repr

/-- The columns of `users` read by `Event.API.save`. -/
structure UserRow where
  id : String
  clinic_id : Option String
  name : Option String
deriving DecidableEq, Repr

/-- The store the events adapter acts on: the `events`, `visits` and
`users` tables, plus the supply of fresh `uuidV1()` values (`nextId`
models the generator state; it is not part of the stored data). -/
structure Db4 where
  events : List EventRow
  visits : List VisitRow
  users : List UserRow
  nextId : Nat
deriving DecidableEq, Repr

/-- The stored tables of the store (the "final stored state" a client
retry is compared on), excluding the id-generator bookkeeping. -/
def Db4.stored (db : Db4) : List EventRow × List VisitRow × List UserRow :=
  (db.events, db.visits, db.users)

/-- A fresh `uuidV1()` value, drawn from the generator supply. -/
def uuidV1Model (n : Nat) : String := "generated-uuid-" ++ toString n

/-- The event-row insert at the end of `Event.API.save`, including its
`onConflict(id).doUpdateSet` clause: insert a new row, or update
patient_id, visit_id, form_id, event_type, form_data, metadata,
is_deleted and recorded_by_user_id (plus `updated_at`/`last_modified` =
now) on an existing row with the same id. -/
def upsertEventList (nowMs : Int) (rows : List EventRow) (newRow : EventRow) : List EventRow :=
  if rows.any (fun r => r.id == newRow.id) then
    rows.map (fun r =>
      if r.id == newRow.id then
        { r with
          patient_id := newRow.patient_id
          visit_id := newRow.visit_id
          form_id := newRow.form_id
          event_type := newRow.event_type
          form_data := newRow.form_data
          metadata := newRow.metadata
          is_deleted := newRow.is_deleted
          recorded_by_user_id := newRow.recorded_by_user_id
          updated_at := PushVal.date nowMs
          last_modified := nowMs }
      else r)
  else rows ++ [newRow]

/-- The values clause of the event insert in `Event.API.save` (the row id
`id || event.id || uuidV1()` is resolved by the caller).
`safeJSONParse(x, fallback)` from `@/lib/utils` is modelled from the
spec: a missing/malformed payload falls back to `[]` (form_data) or the
empty object (metadata); an already-structured payload passes through. -/
def eventInsertRow (nowMs : Int) (rowId : String) (visitIdVal : PushVal) (e : PushRec) : EventRow :=
  { id := rowId
    patient_id := (recGet e "patient_id").getD PushVal.null
    visit_id := visitIdVal
    form_id := (recGet e "form_id").getD PushVal.null
    event_type := (recGet e "event_type").getD PushVal.null
    form_data := (recGet e "form_data").getD (PushVal.str "[]")
    metadata := (recGet e "metadata").getD (PushVal.str (lbr ++ rbr))
    is_deleted := false
    created_at := toSafeDateString ((recGet e "created_at").getD PushVal.null)
    updated_at := toSafeDateString ((recGet e "updated_at").getD PushVal.null)
    last_modified := nowMs
    server_created_at := nowMs
    deleted_at := none
    recorded_by_user_id := (recGet e "recorded_by_user_id").getD PushVal.null }

/-- Model of `Event.API.save(id, event)`:  if `event.visit_id` is a valid UUID
string naming an existing visit (`Visit.API.findById` has no
deleted-filter), upsert the event against it; otherwise fetch any user
(no user: log and return without writing), create an artificial visit —
reusing `event.visit_id` when it is a valid UUID, else a fresh
`uuidV1()` — and upsert the event against that visit. -/
def eventSave (nowMs : Int) (db : Db4) (idArg : Option PushVal) (e : PushRec) : Db4 :=
  let visitIdV := recGet e "visit_id"
  let visitExists :=
    match visitIdV with
    | some (PushVal.str v) => isValidUUID v && db.visits.any (fun vr => vr.id == v)
    | _ => false
  let pickRowId : Db4 → String × Nat := fun d =>
    if truthy idArg then (pushValToString (idArg.getD PushVal.null), d.nextId)
    else if truthy (recGet e "id") then
      (pushValToString ((recGet e "id").getD PushVal.null), d.nextId)
    else (uuidV1Model d.nextId, d.nextId + 1)
  if visitExists then
    let pair := pickRowId db
    { db with
      events := upsertEventList nowMs db.events
        (eventInsertRow nowMs pair.1 (visitIdV.getD PushVal.null) e)
      nextId := pair.2 }
  else
    match db.users.head? with
    | none => db
    | some u =>
        let fresh :=
          match visitIdV with
          | some (PushVal.str v) => !isValidUUID v
          | _ => true
        let insertVisitId :=
          match visitIdV with
          | some (PushVal.str v) => if isValidUUID v then v else uuidV1Model db.nextId
          | _ => uuidV1Model db.nextId
        let createdAtV := recGet e "created_at"
        let newVisit : VisitRow :=
          { id := insertVisitId
            patient_id := (recGet e "patient_id").getD PushVal.null
            clinic_id := u.clinic_id.getD ""
            provider_id := u.id
            provider_name := u.name
            check_in_timestamp :=
              if truthy createdAtV then toSafeDateString (createdAtV.getD PushVal.null)
              else PushVal.null
            metadata :=
              [("artificially_created", PushVal.bool true),
               ("created_from", PushVal.str "server_event_creation"),
               ("original_event_id", (recGet e "id").getD PushVal.null)]
            is_deleted := false
            created_at := nowMs
            updated_at := nowMs
            last_modified := nowMs
            server_created_at := nowMs
            deleted_at := none }
        let db1 : Db4 :=
          { db with
            visits := db.visits ++ [newVisit]
            nextId := if fresh then db.nextId + 1 else db.nextId }
        let pair := pickRowId db1
        { db1 with
          events := upsertEventList nowMs db1.events
            (eventInsertRow nowMs pair.1 (PushVal.str insertVisitId) e)
          nextId := pair.2 }

/-- Model of `Event.API.softDelete`: mark the event row deleted and touch its
bookkeeping timestamps. -/
def eventSoftDelete (nowMs : Int) (db : Db4) (i : String) : Db4 :=
  { db with
    events := db.events.map (fun r =>
      if r.id == i then
        { r with is_deleted := true, updated_at := PushVal.date nowMs, last_modified := nowMs }
      else r) }

/-- The known columns of the `events` table (Event.Table.columns). -/
def eventColumns : List String :=
  ["id", "patient_id", "visit_id", "form_id", "event_type", "form_data", "metadata",
   "is_deleted", "created_at", "updated_at", "last_modified", "server_created_at",
   "deleted_at", "recorded_by_user_id"]

/-- The events entry of `pushTableNameModelMap`:
`Sync.upsertFromDelta = API.save(delta.id, delta)` and
`Sync.deleteFromDelta = API.softDelete`. -/
def eventsAdapter (nowMs : Int) : SyncAdapter Db4 :=
  { columns := eventColumns
    upsertFromDelta := fun db rec => eventSave nowMs db (recGet rec "id") rec
    deleteFromDelta := fun db i => eventSoftDelete nowMs db i }

/-- The fragment of `pushTableNameModelMap` needed to evaluate pushes
that touch only the `events` table. -/
def eventsOnlyCatalog (nowMs : Int) : PushCatalog Db4 :=
  { find := fun t => if t == "events" then some (eventsAdapter nowMs) else none }

/-! ## Theorems -/

/-- The `changes` object of the logging scenario of the spec: a surname
field mapping old "Doe" to new "Smith", in client insertion order. -/
def scenarioChanges : Json :=
  Json.obj [("surname", Json.obj [("old", Json.str "Doe"), ("new", Json.str "Smith")])]

/-- The logging-scenario call parameters of the spec. -/
def scenarioParams : LogEventParams :=
  { transactionId := none
    actionType := "UPDATE"
    tableName := "patients"
    rowId := "p1"
    changes := scenarioChanges
    userId := "u1"
    metadata := none }

/-- A request context for the logging scenario. -/
def scenarioCtx : RequestContext :=
  { ipAddress := some "203.0.113.9", deviceId := "ua-hash", appId := "web" }

/-- The write-time hash input corresponding to the scenario row. -/
def scenarioHashInput : HashInput :=
  { id := "0192aaaa-id", transactionId := "0192aaaa-tx", actionType := "UPDATE",
    tableName := "patients", rowId := "p1", changes := jsStringify scenarioChanges,
    deviceId := "ua-hash", appId := "web", userId := "u1",
    ipAddress := some "203.0.113.9", createdAt := 1770647055887 }

/-- C1: the write-time and verify-time hash functions are NOT equal on
corresponding inputs.  For the logging scenario given in the spec, the string
`verifyHashes` feeds to SHA-256 (built from the stored row, with
`changes::text` rendered by PostgreSQL: keys re-sorted to
`"new"`-before-`"old"` and `": "`/`", "` spacing inserted) differs from
the string `computeHash` hashed at write time (compact `JSON.stringify`
in insertion order).  Consequently the recomputed digest cannot equal the
stored one for any collision-free digest, and `hash_verified` would be
set to false on an untampered row. -/
theorem C1_hash_recompute_payload_differs :
    ∀ sha : String → String,
      verifyRecomputedPayload
          (logEventRow sha "0192aaaa-id" "0192aaaa-tx" 1770647055887 scenarioParams scenarioCtx)
        ≠ computeHashPayload scenarioHashInput
      ∧ pgJsonbText scenarioChanges ≠ jsStringify scenarioChanges := by
  intro sha
  constructor
  · simp only [verifyRecomputedPayload, logEventRow, computeHashPayload]
    decide
  · decide

/-- C2: the row inserted by `logEvent` does NOT have `hash_verified =
null`.  The insert omits the column, so the row takes the column default of the migration `defaultTo(false)`: exactly one row is appended, and its
`hash_verified` is `false` — which the `hash_verified IS NULL` selection of the verification job never picks up. -/
theorem C2_logEvent_inserts_hash_verified_false :
    ∀ sha : String → String,
      (logEvent sha "0192aaaa-id" "0192aaaa-tx" 1770647055887 scenarioParams scenarioCtx []).length = 1
      ∧ (logEventRow sha "0192aaaa-id" "0192aaaa-tx" 1770647055887 scenarioParams scenarioCtx).hash_verified
          = some false
      ∧ (logEventRow sha "0192aaaa-id" "0192aaaa-tx" 1770647055887 scenarioParams scenarioCtx).hash_verified
          ≠ none := by
  intro sha
  refine ⟨rfl, rfl, by simp [logEventRow]⟩

/-- An event_logs row used to exhibit the behaviour of the trigger. -/
def c3OldRow : EventLogRow :=
  { id := "el1", transaction_id := "tx1", action_type := "UPDATE", table_name := "patients",
    row_id := "p1", changes := scenarioChanges, device_id := "ua-hash", app_id := "web",
    user_id := "u1", ip_address := some "203.0.113.9", hash := "abc",
    hash_verified := none, metadata := Json.obj [], is_deleted := false,
    created_at := 1770647055887, updated_at := 1770647055887,
    last_modified := 1770647055887, server_created_at := 1770647055887, deleted_at := none }

/-- The same row with only `last_modified` (a field other than
`hash_verified`) changed. -/
def c3NewRow : EventLogRow := { c3OldRow with last_modified := 1770647060000 }

/-- C3 counterexample: an UPDATE that changes `last_modified` — a stored
field other than `hash_verified` — is ACCEPTED by
`prevent_event_log_mutation` (the trigger only protects the twelve core
audit fields), refuting the claim that every such update is rejected at
the storage layer. -/
theorem C3_counterexample_update_other_field_allowed :
    prevent_event_log_mutation TgOp.update c3OldRow c3NewRow = true
      ∧ c3NewRow.last_modified ≠ c3OldRow.last_modified := by
  constructor
  · decide
  · decide

/-- C3 amended: the trigger rejects every DELETE, and accepts an UPDATE
exactly when the twelve protected fields (id, transaction_id,
action_type, table_name, row_id, changes, device_id, app_id, user_id,
hash, ip_address, created_at) are all unchanged — so `hash_verified`,
`metadata`, `is_deleted` and the sync bookkeeping columns (updated_at,
last_modified, server_created_at, deleted_at) remain mutable, and no
at-most-once transition of `hash_verified` is enforced. -/
theorem C3_amended_trigger_protected_fields :
    (∀ o n : EventLogRow,
        prevent_event_log_mutation TgOp.update o n = true ↔
          (n.id = o.id ∧ n.transaction_id = o.transaction_id ∧
            n.action_type = o.action_type ∧ n.table_name = o.table_name ∧
            n.row_id = o.row_id ∧ Json.beq n.changes o.changes = true ∧
            n.device_id = o.device_id ∧ n.app_id = o.app_id ∧
            n.user_id = o.user_id ∧ n.hash = o.hash ∧
            n.ip_address = o.ip_address ∧ n.created_at = o.created_at))
      ∧ (∀ o n : EventLogRow, prevent_event_log_mutation TgOp.delete o n = false) := by
  constructor
  · intro o n
    simp only [prevent_event_log_mutation, Bool.and_eq_true, beq_iff_eq]
    tauto
  · intro o n
    rfl

/-- Initial store for the retry scenario: empty `events` and `visits`
tables and one user (the artificial-visit path requires one). -/
def c4Db0 : Db4 :=
  { events := [], visits := [],
    users := [{ id := "u1", clinic_id := some "c1", name := some "Nurse" }],
    nextId := 0 }

/-- A pushed event record whose `visit_id` is null (a mobile client
pushing an event not attached to a resolvable visit). -/
def c4EventRec : PushRec :=
  [("id", PushVal.str "e1"), ("patient_id", PushVal.str "p1"),
   ("visit_id", PushVal.null),
   ("created_at", PushVal.str "1770647055887"),
   ("updated_at", PushVal.str "1770647055887")]

/-- The PushRequest of the retry scenario: one created event. -/
def c4Push : List (String × PushDelta) :=
  [("events", { created := [c4EventRec], updated := [], deleted := [] })]

/-- C4: `persistClientChanges` is NOT idempotent.  Pushing the same
single created event (with an unresolvable `visit_id`) twice leaves a
different stored state than pushing it once: each application of
`Event.API.save` takes the artificial-visit branch and inserts a fresh
`uuidV1()` visit, so the retry leaves two artificially-created visit
rows (the first now orphaned) where one push left one. -/
theorem C4_push_retry_not_idempotent :
    Db4.stored (persistClientChanges (eventsOnlyCatalog 1770650000000)
        (persistClientChanges (eventsOnlyCatalog 1770650000000) c4Db0 c4Push) c4Push)
      ≠ Db4.stored (persistClientChanges (eventsOnlyCatalog 1770650000000) c4Db0 c4Push)
    ∧ (persistClientChanges (eventsOnlyCatalog 1770650000000) c4Db0 c4Push).visits.length = 1
    ∧ (persistClientChanges (eventsOnlyCatalog 1770650000000)
        (persistClientChanges (eventsOnlyCatalog 1770650000000) c4Db0 c4Push) c4Push).visits.length
        = 2 := by
  refine ⟨by decide, by decide, by decide⟩

/-- C5 counterexample: `event_type` does not match the date-name
convention, yet a 13-digit epoch-shaped string stored in it IS converted
by the push sanitizer (the epoch conversion tests only the value), so
the claim that non-date-named fields pass through unchanged is false. -/
theorem C5_counterexample_value_gated_conversion :
    isDateColumn "event_type" = false
      ∧ cleanRecord eventColumns [("event_type", PushVal.str "1770647055887")]
          = [("event_type", PushVal.date 1770647055887)]
      ∧ PushVal.date 1770647055887 ≠ PushVal.str "1770647055887" := by
  refine ⟨rfl, by decide, by decide⟩

/-- C5 amended: the sanitizer strips every field not in the known-column
set; a surviving field whose VALUE is epoch-shaped (10-13 digit string,
or a number strictly between 1e9 and 1e14) is converted to a normalized
date regardless of its name; a literal `0`/`"0"` is nulled only in a
date-named field; every other surviving field passes through
unchanged. -/
theorem C5_amended_sanitization :
    (∀ (cols : List String) (rec : PushRec) (kv : String × PushVal),
        kv ∈ cleanRecord cols rec → cols.contains kv.1 = true)
      ∧ (∀ (cols : List String) (rec : PushRec) (k : String) (v : PushVal),
          (k, v) ∈ rec → cols.contains k = true → isEpochTimestamp v = true →
            (k, toSafeDateString v) ∈ cleanRecord cols rec)
      ∧ (∀ (cols : List String) (rec : PushRec) (k : String) (v : PushVal),
          (k, v) ∈ rec → cols.contains k = true → isEpochTimestamp v = false →
            (v = PushVal.num 0 ∨ v = PushVal.str "0") → isDateColumn k = true →
            (k, PushVal.null) ∈ cleanRecord cols rec)
      ∧ (∀ (cols : List String) (rec : PushRec) (k : String) (v : PushVal),
          (k, v) ∈ rec → cols.contains k = true → isEpochTimestamp v = false →
            ¬((v = PushVal.num 0 ∨ v = PushVal.str "0") ∧ isDateColumn k = true) →
            (k, v) ∈ cleanRecord cols rec) := by
  refine ⟨?_, ?_, ?_, ?_⟩
  · intro cols rec kv hkv
    unfold cleanRecord at hkv
    obtain ⟨kv', hmem, heq⟩ := List.mem_map.mp hkv
    have hfil := (List.mem_filter.mp hmem).2
    have h1 : kv.1 = kv'.1 := by
      subst heq
      by_cases h : isEpochTimestamp kv'.2 = true
      · simp [h]
      · simp only [Bool.not_eq_true] at h
        simp [h]
        split <;> rfl
    rw [h1]
    exact hfil
  · intro cols rec k v hmem hcols hepoch
    unfold cleanRecord
    refine List.mem_map.mpr ⟨(k, v), List.mem_filter.mpr ⟨hmem, hcols⟩, ?_⟩
    simp [hepoch]
  · intro cols rec k v hmem hcols hepoch hzero hdate
    unfold cleanRecord
    refine List.mem_map.mpr ⟨(k, v), List.mem_filter.mpr ⟨hmem, hcols⟩, ?_⟩
    rcases hzero with h0 | h0 <;> subst h0 <;> simp [hepoch, hdate]
  · intro cols rec k v hmem hcols hepoch hnot
    unfold cleanRecord
    refine List.mem_map.mpr ⟨(k, v), List.mem_filter.mpr ⟨hmem, hcols⟩, ?_⟩
    simp only [hepoch, Bool.false_eq_true, if_false]
    by_cases hz : (v == PushVal.num 0 || v == PushVal.str "0") = true
    · have hd : isDateColumn k = false := by
        rw [Bool.or_eq_true] at hz
        rcases hz with h | h
        · have := beq_iff_eq.mp h
          rcases Bool.eq_false_or_eq_true (isDateColumn k) with ht | hf
          · exact absurd ⟨Or.inl this, ht⟩ hnot
          · exact hf
        · have := beq_iff_eq.mp h
          rcases Bool.eq_false_or_eq_true (isDateColumn k) with ht | hf
          · exact absurd ⟨Or.inr this, ht⟩ hnot
          · exact hf
      simp [hz, hd]
    · simp only [Bool.not_eq_true] at hz
      simp [hz]

/-- C5 witness: instantiating the amendment on the counterexample record
— the epoch-shaped `event_type` value is converted even though the field
is not date-named. -/
theorem C5_amended_sanitization_witness :
    ("event_type", toSafeDateString (PushVal.str "1770647055887"))
      ∈ cleanRecord eventColumns [("event_type", PushVal.str "1770647055887")] :=
  C5_amended_sanitization.2.1 eventColumns
    [("event_type", PushVal.str "1770647055887")] "event_type"
    (PushVal.str "1770647055887") (by decide) (by decide) (by decide)

/-- C6: history-window policy.  With a valid positive-integer
`MAX_HISTORY_DAYS_SYNC`, the effective cutoff of an exempt entity is the raw
client watermark unconditionally, while that of any other entity is
`max(clientWatermark, now - maxHistoryDays)`; an absent or invalid
setting leaves the watermark as-is for every entity and the pull
proceeds identically to an unlimited-history pull; and in the instance given by the spec (30-day limit, 60-day-old watermark) a non-exempt entity is cut
off 30 days ago while an exempt one keeps its 60-day-old cutoff. -/
theorem C6_history_window_policy :
    (∀ (nowMs client d : Int) (name : String), 0 < d →
        EXEMPT_FROM_HISTORY_LIMIT.contains name = true →
          lastSyncDateFor nowMs client (getMaxHistoryDaysSync (some (JsNumber.int d))) name
            = client)
      ∧ (∀ (nowMs client d : Int) (name : String), 0 < d →
          EXEMPT_FROM_HISTORY_LIMIT.contains name = false →
            lastSyncDateFor nowMs client (getMaxHistoryDaysSync (some (JsNumber.int d))) name
              = max client (nowMs - d * dayMs))
      ∧ (∀ (env : Option JsNumber) (nowMs client : Int) (name : String),
          getMaxHistoryDaysSync env = none →
            lastSyncDateFor nowMs client (getMaxHistoryDaysSync env) name = client)
      ∧ (∀ (env : Option JsNumber) (nowMs lastSyncedAt : Int) (db : PullDb),
          getMaxHistoryDaysSync env = none →
            getDeltaRecords env nowMs db lastSyncedAt = getDeltaRecords none nowMs db lastSyncedAt)
      ∧ (∀ nowMs : Int,
          lastSyncDateFor nowMs (nowMs - 60 * dayMs)
              (getMaxHistoryDaysSync (some (JsNumber.int 30))) "patients"
            = nowMs - 30 * dayMs
          ∧ lastSyncDateFor nowMs (nowMs - 60 * dayMs)
              (getMaxHistoryDaysSync (some (JsNumber.int 30))) "clinics"
            = nowMs - 60 * dayMs) := by
  have hval : ∀ d : Int, 0 < d → getMaxHistoryDaysSync (some (JsNumber.int d)) = some d := by
    intro d hd
    simp [getMaxHistoryDaysSync, not_le.mpr hd]
  refine ⟨?_, ?_, ?_, ?_, ?_⟩
  · intro nowMs client d name hd hc
    unfold lastSyncDateFor
    rw [hc]
    rfl
  · intro nowMs client d name hd hc
    rw [hval d hd]
    simp only [lastSyncDateFor, hc, Bool.false_eq_true, if_false, effectiveLastSyncDate]
    by_cases h : client < nowMs - d * dayMs
    · rw [if_pos h, max_eq_right h.le]
    · rw [if_neg h, max_eq_left (not_lt.mp h)]
  · intro env nowMs client name henv
    rw [henv]
    simp only [lastSyncDateFor, effectiveLastSyncDate]
    split <;> rfl
  · intro env nowMs lastSyncedAt db henv
    have h0 : getMaxHistoryDaysSync none = none := rfl
    simp only [getDeltaRecords, henv, h0]
  · intro nowMs
    have hpat : EXEMPT_FROM_HISTORY_LIMIT.contains "patients" = false := by decide
    have hcli : EXEMPT_FROM_HISTORY_LIMIT.contains "clinics" = true := by decide
    constructor
    · rw [hval 30 (by norm_num)]
      simp only [lastSyncDateFor, hpat, Bool.false_eq_true, if_false, effectiveLastSyncDate]
      rw [if_pos (by simp only [dayMs]; omega)]
    · unfold lastSyncDateFor
      rw [hcli]
      rfl

/-- C6 witness: the policy at `maxHistoryDays = 30`, `now = 0`, watermark
60 days old — the non-exempt `patients` cutoff is 30 days ago while the
exempt `clinics` cutoff stays 60 days ago. -/
theorem C6_history_window_policy_witness :
    lastSyncDateFor 0 (0 - 60 * dayMs) (getMaxHistoryDaysSync (some (JsNumber.int 30))) "patients"
        = 0 - 30 * dayMs
      ∧ lastSyncDateFor 0 (0 - 60 * dayMs) (getMaxHistoryDaysSync (some (JsNumber.int 30))) "clinics"
        = 0 - 60 * dayMs :=
  C6_history_window_policy.2.2.2.2 0

/-- The boundary row for the updated-set claim: created exactly at the
cutoff instant and modified afterwards. -/
def c7Row : SyncRow :=
  { id := "r1", server_created_at := 1000, last_modified := 1001,
    deleted_at := none, is_deleted := false }

/-- C7 counterexample: a live row with `server_created_at` exactly equal
to the cutoff `T` and `last_modified > T` appears in NEITHER the updated
nor the created query result (the updated query uses the strict
`server_created_at < lastSyncDate`), refuting the claimed
`serverCreatedAt <= T` membership. -/
theorem C7_counterexample_boundary_row_dropped :
    c7Row ∉ updatedRecords 1000 [c7Row]
      ∧ c7Row ∉ createdRecords 1000 [c7Row]
      ∧ c7Row.server_created_at = 1000 ∧ 1000 < c7Row.last_modified
      ∧ c7Row.deleted_at = none ∧ c7Row.is_deleted = false := by
  refine ⟨by decide, by decide, rfl, by decide, rfl, rfl⟩

/-- C7 amended: the updated list contains exactly the live rows with
`lastModified > T` and `serverCreatedAt < T` (strictly — a row created
exactly at `T` appears in neither created nor updated), and under unique
row ids no id appears in both the created and updated lists of the same
pull. -/
theorem C7_amended_updated_set :
    (∀ (t : Int) (rows : List SyncRow) (r : SyncRow),
        r ∈ updatedRecords t rows ↔
          (r ∈ rows ∧ t < r.last_modified ∧ r.server_created_at < t ∧
            r.deleted_at = none ∧ r.is_deleted = false))
      ∧ (∀ (t : Int) (rows : List SyncRow) (r : SyncRow),
          r.server_created_at = t →
            r ∉ createdRecords t rows ∧ r ∉ updatedRecords t rows)
      ∧ (∀ (t : Int) (rows : List SyncRow),
          (rows.map SyncRow.id).Nodup →
            ∀ i : String, i ∈ (createdRecords t rows).map SyncRow.id →
              i ∉ (updatedRecords t rows).map SyncRow.id) := by
  have hupd : ∀ (t : Int) (rows : List SyncRow) (r : SyncRow),
      r ∈ updatedRecords t rows ↔
        (r ∈ rows ∧ t < r.last_modified ∧ r.server_created_at < t ∧
          r.deleted_at = none ∧ r.is_deleted = false) := by
    intro t rows r
    simp only [updatedRecords, List.mem_filter, Bool.and_eq_true, decide_eq_true_eq,
      beq_iff_eq]
    tauto
  have hcre : ∀ (t : Int) (rows : List SyncRow) (r : SyncRow),
      r ∈ createdRecords t rows ↔
        (r ∈ rows ∧ t < r.server_created_at ∧
          r.deleted_at = none ∧ r.is_deleted = false) := by
    intro t rows r
    simp only [createdRecords, List.mem_filter, Bool.and_eq_true, decide_eq_true_eq,
      beq_iff_eq]
    tauto
  refine ⟨hupd, ?_, ?_⟩
  · intro t rows r hr
    constructor
    · intro hmem
      have := (hcre t rows r).mp hmem
      omega
    · intro hmem
      have := (hupd t rows r).mp hmem
      omega
  · intro t rows hnodup i hic hiu
    obtain ⟨r1, hr1mem, hr1id⟩ := List.mem_map.mp hic
    obtain ⟨r2, hr2mem, hr2id⟩ := List.mem_map.mp hiu
    have h1 := (hcre t rows r1).mp hr1mem
    have h2 := (hupd t rows r2).mp hr2mem
    have heq : r1 = r2 :=
      List.inj_on_of_nodup_map hnodup h1.1 h2.1 (hr1id.trans hr2id.symm)
    subst heq
    omega

/-- C7 witness: on a store with one freshly-created live row and unique
ids, the id of the row appears in the created list and therefore not in the
updated list. -/
theorem C7_amended_updated_set_witness :
    "a" ∉ (updatedRecords 0
        [{ id := "a", server_created_at := 5, last_modified := 6,
           deleted_at := none, is_deleted := false }]).map SyncRow.id :=
  C7_amended_updated_set.2.2 0
    [{ id := "a", server_created_at := 5, last_modified := 6,
       deleted_at := none, is_deleted := false }]
    (by decide) "a" (by decide)

/-- C8: a bootstrap pull (watermark `0`) returns an empty `deleted` list
for every table key in the change set — the `lastSyncedAt === 0` guard of the entity loop short-circuits the deleted query, and the two
watermark-only tables never report deletions. -/
theorem C8_bootstrap_pull_no_deletions :
    ∀ (env : Option JsNumber) (nowMs : Int) (db : PullDb) (kv : String × DeltaOut),
      kv ∈ getDeltaRecords env nowMs db 0 → kv.2.deletedIds = [] := by
  intro env nowMs db kv hkv
  unfold getDeltaRecords at hkv
  rcases List.mem_append.mp hkv with h | h
  · obtain ⟨e, _, heq⟩ := List.mem_map.mp h
    rw [← heq]
    simp [DeltaOut.deletedIds, entityDelta, deletedRecordIds]
  · simp only [List.mem_cons, List.mem_singleton] at h
    rcases h with h | h | h
    · rw [h]
      rfl
    · rw [h]
      rfl
    · cases h

/-- A soft-deleted row, present before the bootstrap watermark. -/
def c8Row : SyncRow :=
  { id := "x", server_created_at := -5, last_modified := -5,
    deleted_at := some (-1), is_deleted := true }

/-- A patients entity table holding only the soft-deleted row. -/
def c8Entity : EntityTable :=
  { name := "patients", mobileName := "patients", rows := [c8Row] }

/-- A pull store with one entity holding a soft-deleted row, used to
instantiate the bootstrap theorem. -/
def c8Db : PullDb :=
  { entities := [c8Entity], user_clinic_permissions := [], app_config := [] }

/-- C8 witness: the bootstrap pull over `c8Db` — whose only row is
soft-deleted — still reports no deletions for the `patients` key. -/
theorem C8_bootstrap_pull_no_deletions_witness :
    (("patients", DeltaOut.ent { created := [], updated := [], deleted := [] })
        : String × DeltaOut).2.deletedIds = [] :=
  C8_bootstrap_pull_no_deletions none 5 c8Db
    ("patients", DeltaOut.ent { created := [], updated := [], deleted := [] })
    (List.Mem.head _)

/-- C9: a `PushRequest` entry whose table name is not in the catalog is
skipped — zero writes happen for that key, no error is raised, and the
rest of the request is applied exactly as if the unknown entry were
absent. -/
theorem C9_unknown_table_skipped :
    ∀ (σ : Type) (cat : PushCatalog σ) (s : σ)
      (pre post : List (String × PushDelta)) (tbl : String) (d : PushDelta),
      cat.find tbl = none →
        persistClientChanges cat s (pre ++ (tbl, d) :: post)
          = persistClientChanges cat s (pre ++ post) := by
  intro σ cat s pre post tbl d hfind
  induction pre generalizing s with
  | nil =>
      simp only [List.nil_append, persistClientChanges, List.foldl_cons, hfind]
  | cons hd tl ih =>
      simp only [List.cons_append, persistClientChanges, List.foldl_cons]
      exact ih _

/-- C9 witness: a push containing the unknown table `foo_bar` alongside
`events` is applied exactly as the same push without `foo_bar`. -/
theorem C9_unknown_table_skipped_witness :
    persistClientChanges (eventsOnlyCatalog 0) c4Db0
        ([] ++ ("foo_bar", { created := [], updated := [], deleted := [] }) :: c4Push)
      = persistClientChanges (eventsOnlyCatalog 0) c4Db0 ([] ++ c4Push) :=
  C9_unknown_table_skipped Db4 (eventsOnlyCatalog 0) c4Db0 [] c4Push "foo_bar"
    { created := [], updated := [], deleted := [] } rfl

/-- C10: every pull change set also assigns the keys
`user_clinic_permissions` and `app_config`, whose deltas are computed
from the RAW client watermark over `created_at`/`updated_at` — the
retention setting and `now` play no part — and whose `deleted` list is
empty for every watermark, zero or not. -/
theorem C10_watermark_only_tables :
    (∀ (env : Option JsNumber) (nowMs lastSyncedAt : Int) (db : PullDb),
        changeSetLookup (getDeltaRecords env nowMs db lastSyncedAt) "user_clinic_permissions"
          = some (DeltaOut.adm (adminDelta lastSyncedAt db.user_clinic_permissions))
        ∧ changeSetLookup (getDeltaRecords env nowMs db lastSyncedAt) "app_config"
          = some (DeltaOut.adm (adminDelta lastSyncedAt db.app_config)))
      ∧ (∀ (lastSyncedAt : Int) (rows : List AdminRow) (r : AdminRow),
          (r ∈ (adminDelta lastSyncedAt rows).created ↔
            (r ∈ rows ∧ lastSyncedAt < r.created_at))
          ∧ (r ∈ (adminDelta lastSyncedAt rows).updated ↔
            (r ∈ rows ∧ r.created_at < lastSyncedAt ∧ lastSyncedAt < r.updated_at)))
      ∧ (∀ (lastSyncedAt : Int) (rows : List AdminRow),
          (adminDelta lastSyncedAt rows).deleted = []) := by
  have hbeq : (("app_config" : String) == "user_clinic_permissions") = false := by decide
  refine ⟨?_, ?_, ?_⟩
  · intro env nowMs lastSyncedAt db
    constructor
    · simp [changeSetLookup, getDeltaRecords, List.reverse_append, List.find?_cons, hbeq]
    · simp [changeSetLookup, getDeltaRecords, List.reverse_append, List.find?_cons]
  · intro lastSyncedAt rows r
    constructor
    · simp [adminDelta, List.mem_filter, decide_eq_true_eq]
    · simp [adminDelta, List.mem_filter, Bool.and_eq_true, decide_eq_true_eq]
  · intro lastSyncedAt rows
    rfl
